import Mathlib

/-!
# Verification of the HistogramReader data service

A shallow embedding of `histogram_reader/services/data_reader.py`
(`DataReaderService`) together with proofs about its operations.

Modelling conventions:
* A file's content is modelled already tokenised: a `CellGrid` is the list of
  lines, each line the list of colon-separated fields (the `sep=":"` split that
  `pandas.read_csv` performs).  The first line is the header.
* Numeric values are modelled as `Int` (the claims under study do not depend on
  fractional or floating-point behaviour).  `pandas.to_numeric(errors="coerce")`
  is modelled by `parseNum : String → Option Int`, where `none` plays the role
  of `NaN`.
* A missing (`NaN`) cell produced by `read_csv` is an empty field.
* Python dictionaries are modelled as association lists with first-occurrence
  lookup, in-place replacement on insert, and erasure of the key on delete —
  the observable behaviour of an insertion-ordered `dict`.
* Every service method is translated in state-passing style: it takes the
  `Service` state and returns the (possibly updated) state paired with its
  return value, mirroring the Python methods on `self`.
* The filesystem is a parameter `FS : String → Option CellGrid` (path to
  content); `os.path.exists` is `Option.isSome`.  Directory trees for
  `os.walk` are modelled by the nested inductive `Entry`, where a directory
  carries a readability flag: an unreadable directory is one whose `scandir`
  fails, which `os.walk` (with `onerror=None`) silently skips.
-/

set_option autoImplicit false

namespace HistogramReader

/-- A tokenised input file: lines of colon-separated fields, header first. -/
abbrev CellGrid := List (List String)

/-- The filesystem seen by the service: maps a path to a file's content. -/
abbrev FS := String → Option CellGrid

/-- Strip leading and trailing whitespace (Python `str.strip`,
`pandas` `str.strip`). -/
def trimStr (s : String) : String :=
  String.mk (((s.data.dropWhile Char.isWhitespace).reverse.dropWhile
    Char.isWhitespace).reverse)

/-- Python `str.endswith`. -/
def endsWithStr (s t : String) : Bool :=
  s.data.drop (s.data.length - t.data.length) == t.data

/-- Python slicing `s[:-n]` for `n ≤ len(s)`. -/
def dropRightStr (s : String) (n : Nat) : String :=
  String.mk (s.data.take (s.data.length - n))

/-- Python `str.lower` on an ASCII character. -/
def toLowerChar (c : Char) : Char :=
  if 65 ≤ c.toNat ∧ c.toNat ≤ 90 then Char.ofNat (c.toNat + 32) else c

/-- Python `str.lower` (the file extensions under study are ASCII). -/
def toLowerStr (s : String) : String :=
  String.mk (s.data.map toLowerChar)

/-- Accumulate decimal digits into a natural number. -/
def digitsToNat (cs : List Char) : Nat :=
  cs.foldl (fun a c => a * 10 + (c.toNat - 48)) 0

/-- Parse a nonempty all-digit character list; `none` otherwise. -/
def parseDigits (cs : List Char) : Option Nat :=
  if cs.isEmpty then none
  else if cs.all (fun c => c.isDigit) then some (digitsToNat cs) else none

/-- Model of `pandas.to_numeric(x, errors="coerce")` on a single cell,
restricted to integer literals: surrounding whitespace is ignored, an optional
leading minus sign is allowed, and anything non-numeric becomes `none`
(the model's `NaN`). -/
def parseNum (s : String) : Option Int :=
  match (trimStr s).data with
  | [] => none
  | c :: cs =>
    if c = '-' then (parseDigits cs).map (fun n => -(n : Int))
    else (parseDigits (c :: cs)).map (fun n => (n : Int))

/-- Association-list lookup: the value of the first entry with the given key,
modelling Python `dict` access. -/
def alistLookup {α : Type} : List (String × α) → String → Option α
  | [], _ => none
  | (k2, v) :: rest, k => if k2 = k then some v else alistLookup rest k

/-- Association-list insert: replace the value at the first occurrence of the
key, or append a new entry — Python `d[k] = v` on an insertion-ordered dict. -/
def alistInsert {α : Type} : List (String × α) → String → α → List (String × α)
  | [], k, v => [(k, v)]
  | (k2, w) :: rest, k, v =>
    if k2 = k then (k2, v) :: rest else (k2, w) :: alistInsert rest k v

/-- Association-list erase: drop every entry with the given key —
Python `del d[k]` (keys are unique, so at most one entry is dropped). -/
def alistErase {α : Type} : List (String × α) → String → List (String × α)
  | [], _ => []
  | (k2, w) :: rest, k =>
    if k2 = k then alistErase rest k else (k2, w) :: alistErase rest k

/-- The parsed table held for a loaded file: `pandas.DataFrame` with a numeric
(possibly `NaN`) index, stripped column names, and integer data cells.
`rows` is row-major; every row has `cols.length` cells. -/
structure DataFrame where
  cols : List String
  index : List (Option Int)
  rows : List (List Int)
  deriving DecidableEq

/-- Model of `DataReaderService.read_csv_file` (data_reader.py lines 18-48):
`pd.read_csv(sep=":", header=0, index_col=0)`, strip the column names, coerce
the index to numeric, `df.dropna()`, then coerce every data cell to numeric
with non-numeric values replaced by 0.

Faithfulness notes.  `read_csv` skips blank lines; a row longer than the
header raises a tokenising error (caught by the method, which returns `None`);
a shorter row is padded with `NaN` cells.  `df.dropna()` drops the rows that
contain a `NaN` *data* cell (an empty field); it does **not** inspect the
index, so rows whose first column failed numeric coercion are kept with a
`NaN` index. -/
def readCsv (file : CellGrid) : Option DataFrame :=
  match file with
  | [] => none
  | header :: body0 =>
    match header with
    | [] => none
    | _ :: colNames =>
      let n := header.length
      let body1 := body0.filter (fun r => !(r.isEmpty || r = [""]))
      if body1.all (fun r => r.length ≤ n) then
        let body2 := body1.map (fun r => r ++ List.replicate (n - r.length) "")
        let body3 := body2.filter (fun r => (r.drop 1).all (fun c => !(c = "")))
        some
          ⟨colNames.map trimStr,
           body3.map (fun r => parseNum (r.headD "")),
           body3.map (fun r => (r.drop 1).map (fun c => (parseNum c).getD 0))⟩
      else none

/-- Strip a trailing `A0`/`A1` suffix from a column name
(data_reader.py line 68). -/
def stripBase (c : String) : String :=
  if endsWithStr c "A0" || endsWithStr c "A1" then dropRightStr c 2 else c

/-- Append a member to its base-name group, keeping the group order of first
occurrence — the `channel_groups` dict built in data_reader.py lines 65-72. -/
def addToGroup {β : Type} : List (String × List β) → String → β → List (String × List β)
  | [], b, x => [(b, [x])]
  | (b2, xs) :: rest, b, x =>
    if b2 = b then (b2, xs ++ [x]) :: rest else (b2, xs) :: addToGroup rest b x

/-- Group the column *labels* of a table by base channel name
(data_reader.py lines 65-72): the code iterates `for col in df.columns` and
appends the label `col` itself, so a label that occurs twice in `df.columns`
is appended twice to its group. -/
def channelGroups (cols : List String) : List (String × List String) :=
  cols.foldl (fun gs c => addToGroup gs (stripBase c) c) []

/-- The positions of every column whose label equals `l`, in column order —
the columns that pandas label selection `df[l]` matches. -/
def labelPositions : List String → String → List Nat
  | [], _ => []
  | c :: rest, l =>
    (if c = l then [0] else []) ++ (labelPositions rest l).map (fun j => j + 1)

/-- The `j`-th raw column of the parsed table, as a per-bin value list. -/
def rawCol (df : DataFrame) (j : Nat) : List Int :=
  df.rows.map (fun r => r.getD j 0)

/-- A numpy array as produced by `.values`: one-dimensional from a pandas
`Series`, two-dimensional from a `DataFrame` (which pandas returns when a
selected label is duplicated). -/
inductive NpArray where
  | oneD : List Int → NpArray
  | twoD : List (List Int) → NpArray
  deriving DecidableEq

/-- The column positions selected by `df[sub_channels]` for a list of label
keys: for each key in order, every column matching that label. -/
def dfGetList (df : DataFrame) (ls : List String) : List Nat :=
  ls.flatMap (labelPositions df.cols)

/-- `.sum(axis=1).values` over the selected column positions: the per-row sum
of every selected column instance. -/
def sumAxis1 (df : DataFrame) (js : List Nat) : List Int :=
  df.rows.map (fun r => ((js.map (fun j => r.getD j 0)).sum))

/-- `df[l].values` for a single label key: a 1-D array when exactly one column
matches the label, a 2-D array of every matching column when the label is
duplicated.  (A label with no match raises `KeyError` in pandas; it cannot
arise here because `process_histogram_data` only uses labels taken from
`df.columns`.) -/
def dfGetValues (df : DataFrame) (l : String) : NpArray :=
  match labelPositions df.cols l with
  | [j] => NpArray.oneD (rawCol df j)
  | js => NpArray.twoD (df.rows.map (fun r => js.map (fun j => r.getD j 0)))

/-- The derived series of one channel group (data_reader.py lines 78-86):
a group of exactly two labels is summed per bin over every column instance
that the two label keys select (`df[sub_channels].sum(axis=1)`), any other
group contributes the label selection of its first member
(`df[sub_channels[0]]`). -/
def deriveData (df : DataFrame) (ls : List String) : NpArray :=
  if ls.length = 2 then NpArray.oneD (sumAxis1 df (dfGetList df ls))
  else dfGetValues df (ls.headD "")

/-- All derived channels of a table, in group order. -/
def processChannels (df : DataFrame) : List (String × NpArray) :=
  (channelGroups df.cols).map (fun g => (g.1, deriveData df g.2))

/-- The dictionary returned by `process_histogram_data`
(data_reader.py lines 88-92). -/
structure Processed where
  channels : List (String × NpArray)
  bin_values : List (Option Int)
  num_bins : Nat
  deriving DecidableEq

/-- Derive the processed channel mapping from a parsed table
(the body of `process_histogram_data`, data_reader.py lines 62-92). -/
def processDF (df : DataFrame) : Processed :=
  ⟨processChannels df, df.index, df.index.length⟩

/-- The state of a `DataReaderService` instance: the two parallel mappings
`self.loaded_files` and `self.processed_data` (data_reader.py lines 13-16). -/
structure Service where
  loaded_files : List (String × DataFrame)
  processed_data : List (String × Processed)
  deriving DecidableEq

/-- `DataReaderService.__init__`: both mappings start empty. -/
def emptyService : Service := ⟨[], []⟩

/-- `DataReaderService.process_histogram_data` (data_reader.py lines 50-92):
`None` if the path is not loaded, otherwise the derived mapping. -/
def process_histogram_data (s : Service) (p : String) : Option Processed :=
  match alistLookup s.loaded_files p with
  | none => none
  | some df => some (processDF df)

/-- `os.path.exists` against the modelled filesystem. -/
def os_path_exists (fs : FS) (p : String) : Bool :=
  (fs p).isSome

/-- `DataReaderService.read_csv_file` applied through the filesystem: a missing
file makes `pd.read_csv` raise, which the method catches, returning `None`. -/
def read_csv_file (fs : FS) (p : String) : Option DataFrame :=
  (fs p).bind readCsv

/-- `DataReaderService.load_file` (data_reader.py lines 94-119): `false` if the
path does not exist or parsing fails, otherwise store the raw table, derive and
store the processed mapping (the derived dictionary is non-empty, hence truthy),
and return `true`. -/
def load_file (fs : FS) (s : Service) (p : String) : Service × Bool :=
  if os_path_exists fs p = false then (s, false)
  else
    match read_csv_file fs p with
    | none => (s, false)
    | some df =>
      let s1 : Service := ⟨alistInsert s.loaded_files p df, s.processed_data⟩
      match process_histogram_data s1 p with
      | none => (s1, true)
      | some pr => (⟨s1.loaded_files, alistInsert s1.processed_data p pr⟩, true)

/-- `os.path.basename` for POSIX paths: the part after the last slash. -/
def basename (p : String) : String :=
  String.mk ((p.data.reverse.takeWhile (fun c => !(c = '/'))).reverse)

/-- Numeric entries of the parsed index (`NaN` entries are skipped, as
`pandas` min/max do). -/
def numIndex (l : List (Option Int)) : List Int :=
  l.filterMap id

/-- `pandas` min over a list of numeric values (`none` on an empty list,
standing for `NaN`). -/
def listMin : List Int → Option Int
  | [] => none
  | x :: xs => some (xs.foldl min x)

/-- `pandas` max over a list of numeric values. -/
def listMax : List Int → Option Int
  | [] => none
  | x :: xs => some (xs.foldl max x)

/-- The dictionary returned by `get_file_info` (data_reader.py lines 136-146).
`bin_min`/`bin_max` are `Option Int`, `none` standing for the `NaN` produced
when every index entry failed numeric coercion. -/
structure FileInfo where
  file_path : String
  file_name : String
  num_channels : Nat
  num_bins : Nat
  bin_min : Option Int
  bin_max : Option Int
  channels : List String
  deriving DecidableEq

/-- `DataReaderService.get_file_info` (data_reader.py lines 121-146). -/
def get_file_info (s : Service) (p : String) : Service × Option FileInfo :=
  match alistLookup s.loaded_files p with
  | none => (s, none)
  | some df =>
    let processedOpt := alistLookup s.processed_data p
    let chans := match processedOpt with
      | some pr => pr.channels
      | none => []
    let nbins := match processedOpt with
      | some pr => pr.num_bins
      | none => 0
    (s, some
      ⟨p, basename p, chans.length, nbins,
       (if 0 < df.index.length then listMin (numIndex df.index) else some 0),
       (if 0 < df.index.length then listMax (numIndex df.index) else some 0),
       chans.map Prod.fst⟩)

/-- `DataReaderService.get_channel_data` (data_reader.py lines 148-169). -/
def get_channel_data (s : Service) (p ch : String) :
    Service × Option (List (Option Int) × NpArray) :=
  match alistLookup s.processed_data p with
  | none => (s, none)
  | some pr =>
    match alistLookup pr.channels ch with
    | none => (s, none)
    | some vs => (s, some (pr.bin_values, vs))

/-- `DataReaderService.get_all_channel_data` (data_reader.py lines 171-192). -/
def get_all_channel_data (s : Service) (p : String) :
    Service × Option (List (String × (List (Option Int) × NpArray))) :=
  match alistLookup s.processed_data p with
  | none => (s, none)
  | some pr => (s, some (pr.channels.map (fun cv => (cv.1, (pr.bin_values, cv.2)))))

/-- `DataReaderService.unload_file` (data_reader.py lines 219-234): delete both
entries when present, always return `true`. -/
def unload_file (s : Service) (p : String) : Service × Bool :=
  (⟨alistErase s.loaded_files p, alistErase s.processed_data p⟩, true)

/-- `DataReaderService.unload_all_files` (data_reader.py lines 236-239). -/
def unload_all_files (_s : Service) : Service :=
  ⟨[], []⟩

/-- `DataReaderService.get_loaded_files` (data_reader.py lines 241-247). -/
def get_loaded_files (s : Service) : Service × List String :=
  (s, s.loaded_files.map Prod.fst)

/-- `DataReaderService.is_file_loaded` (data_reader.py lines 249-258). -/
def is_file_loaded (s : Service) (p : String) : Service × Bool :=
  (s, (alistLookup s.loaded_files p).isSome)

/-- A filesystem directory entry for the `os.walk` model.  A directory carries
a readability flag: `os.walk` (default `onerror=None`) silently skips a
directory whose `scandir` fails, yielding nothing for that subtree. -/
inductive Entry where
  | file : String → Entry
  | dir : String → Bool → List Entry → Entry

/-- `os.path.join` for the POSIX paths produced during a walk. -/
def pathJoin (a b : String) : String :=
  a ++ "/" ++ b

/-- The plain-file names among a directory's entries (the `files` component of
an `os.walk` triple). -/
def filesOf (cs : List Entry) : List String :=
  cs.filterMap (fun e =>
    match e with
    | Entry.file n => some n
    | Entry.dir _ _ _ => none)

/-- The `(root, files)` pairs that `os.walk` yields below a directory's
children, in top-down order: for each subdirectory (in listing order), its own
pair first when it is readable, then its subtree.  An unreadable subdirectory
contributes nothing. -/
def walkList (root : String) : List Entry → List (String × List String)
  | [] => []
  | Entry.file _ :: rest => walkList root rest
  | Entry.dir n r cs2 :: rest =>
    (if r then (pathJoin root n, filesOf cs2) :: walkList (pathJoin root n) cs2
     else []) ++ walkList root rest

/-- All `(root, files)` pairs of `os.walk(root)` over a directory with the
given readability and children: the directory itself first, then its subtree. -/
def walkDir (root : String) (rd : Bool) (cs : List Entry) : List (String × List String) :=
  if rd then (root, filesOf cs) :: walkList root cs else []

/-- `os.path.splitext(p)[1]` for a bare filename: the part of the name from
the last dot on, except that the leading run of dots never starts an
extension. -/
def splitextExt (p : String) : String :=
  let cs := p.data.dropWhile (fun c => c = '.')
  match (cs.reverse.takeWhile (fun c => !(c = '.'))).reverse, cs with
  | _, [] => ""
  | kept, _ => if kept.length = cs.length then "" else String.mk ('.' :: kept)

/-- The extension test of `scan_folder` (data_reader.py lines 203-212):
the lower-cased `splitext` extension must be in `{.csv, .txt, .dat}`. -/
def isSupportedFile (f : String) : Bool :=
  decide (toLowerStr (splitextExt f) ∈ ([".csv", ".txt", ".dat"] : List String))

/-- The pure walk-and-filter core of `DataReaderService.scan_folder`
(data_reader.py lines 194-217): every walked file whose lower-cased extension
is in the allow-list, joined to its directory, in walk order. -/
def scanFiles (root : String) (rd : Bool) (cs : List Entry) : List String :=
  (walkDir root rd cs).flatMap
    (fun rf => (rf.2.filter isSupportedFile).map (fun f => pathJoin rf.1 f))

/-- `DataReaderService.scan_folder` (data_reader.py lines 194-217), in
state-passing style; the folder argument is a root path with its readability
and children. -/
def scan_folder (s : Service) (root : String) (rd : Bool) (cs : List Entry) :
    Service × List String :=
  (s, scanFiles root rd cs)

/-- A file named `f` sits in a directory `d` of the given tree that a
top-down walk from `root` can reach through readable directories only. -/
inductive AccessibleFile : String → Bool → List Entry → String → String → Prop where
  | here {root : String} {cs : List Entry} {f : String} :
      Entry.file f ∈ cs → AccessibleFile root true cs root f
  | sub {root : String} {cs : List Entry} {n : String} {r : Bool}
      {cs2 : List Entry} {d f : String} :
      Entry.dir n r cs2 ∈ cs → AccessibleFile (pathJoin root n) r cs2 d f →
      AccessibleFile root true cs d f

/-- The service states reachable from a fresh `DataReaderService` by any
sequence of its public operations (the filesystem may differ between calls). -/
inductive Reachable : Service → Prop where
  | init : Reachable emptyService
  | load (fs : FS) (p : String) {s : Service} :
      Reachable s → Reachable (load_file fs s p).1
  | unload (p : String) {s : Service} :
      Reachable s → Reachable (unload_file s p).1
  | unloadAll {s : Service} :
      Reachable s → Reachable (unload_all_files s)
  | infoQuery (p : String) {s : Service} :
      Reachable s → Reachable (get_file_info s p).1
  | chanQuery (p c : String) {s : Service} :
      Reachable s → Reachable (get_channel_data s p c).1
  | allChanQuery (p : String) {s : Service} :
      Reachable s → Reachable (get_all_channel_data s p).1
  | scanQuery (root : String) (rd : Bool) (cs : List Entry) {s : Service} :
      Reachable s → Reachable (scan_folder s root rd cs).1
  | listQuery {s : Service} :
      Reachable s → Reachable (get_loaded_files s).1
  | loadedQuery (p : String) {s : Service} :
      Reachable s → Reachable (is_file_loaded s p).1

/-- The header line and two data rows of the running example file: channels
`Ch01A0`, `Ch01A1`, `Ch02` over bins 1 and 2. -/
def exampleFile : CellGrid :=
  [["BinValue", "Ch01A0", "Ch01A1", "Ch02"],
   ["1", "2", "3", "10"],
   ["2", "4", "5", "20"]]

/-- The parse of `exampleFile`. -/
def exampleDF : DataFrame :=
  ⟨["Ch01A0", "Ch01A1", "Ch02"], [some 1, some 2], [[2, 3, 10], [4, 5, 20]]⟩

/-- A one-file filesystem holding `exampleFile` at path `f`. -/
def exampleFS : FS :=
  fun q => if q = "f" then some exampleFile else none

/-- The service state after loading `exampleFile`. -/
def exampleLoaded : Service :=
  (load_file exampleFS emptyService "f").1

/-- A file whose third data row has the non-numeric bin value `abc`. -/
def badIndexFile : CellGrid :=
  [["BinValue", "Ch01"], ["1", "2"], ["abc", "4"], ["2", "6"]]

/-- The directory of the spec's `scan_folder` example: `a.csv`, `b.png` and a
subdirectory `c` containing `d.txt`. -/
def exampleDir : List Entry :=
  [Entry.file "a.csv", Entry.file "b.png", Entry.dir "c" true [Entry.file "d.txt"]]

/-- The linking invariant of the two service mappings: every processed entry
is exactly the derivation of the raw entry at the same path. -/
def WFState (s : Service) : Prop :=
  ∀ p, alistLookup s.processed_data p = (alistLookup s.loaded_files p).map processDF

theorem alistLookup_insert {α : Type} (l : List (String × α)) (k : String) (v : α)
    (q : String) :
    alistLookup (alistInsert l k v) q = if k = q then some v else alistLookup l q := by
  induction l with
  | nil => rfl
  | cons hd tl ih =>
    obtain ⟨k2, w⟩ := hd
    by_cases h1 : k2 = k
    · subst h1
      by_cases h2 : k2 = q <;> simp [alistInsert, alistLookup, h2]
    · by_cases h2 : k2 = q
      · subst h2
        have h3 : ¬k = k2 := fun hh => h1 hh.symm
        rw [if_neg h3]
        simp [alistInsert, h1, alistLookup]
      · simp [alistInsert, h1, alistLookup, h2, ih]

theorem alistLookup_erase {α : Type} (l : List (String × α)) (k q : String) :
    alistLookup (alistErase l k) q = if k = q then none else alistLookup l q := by
  induction l with
  | nil => simp [alistErase, alistLookup]
  | cons hd tl ih =>
    obtain ⟨k2, w⟩ := hd
    by_cases h1 : k2 = k
    · subst h1
      by_cases h2 : k2 = q
      · subst h2
        simp [alistErase, ih]
      · simp [alistErase, alistLookup, ih, h2]
    · by_cases h2 : k2 = q
      · subst h2
        have h3 : ¬k = k2 := fun hh => h1 hh.symm
        rw [if_neg h3]
        simp [alistErase, h1, alistLookup]
      · simp [alistErase, h1, alistLookup, h2, ih]

theorem mem_filesOf (cs : List Entry) (f : String) :
    f ∈ filesOf cs ↔ Entry.file f ∈ cs := by
  simp only [filesOf, List.mem_filterMap]
  constructor
  · rintro ⟨e, he, hm⟩
    cases e with
    | file n =>
      simp only [Option.some.injEq] at hm
      subst hm
      exact he
    | dir n r cs2 => simp at hm
  · intro h
    exact ⟨Entry.file f, h, rfl⟩

theorem walkList_file (root m : String) (rest : List Entry) :
    walkList root (Entry.file m :: rest) = walkList root rest := by
  simp [walkList]

theorem walkList_dir (root n : String) (r : Bool) (cs2 rest : List Entry) :
    walkList root (Entry.dir n r cs2 :: rest) =
      walkDir (pathJoin root n) r cs2 ++ walkList root rest := by
  cases r <;> simp [walkList, walkDir]

theorem mem_walkList (root : String) (cs : List Entry) (pr : String × List String) :
    pr ∈ walkList root cs ↔
      ∃ n r cs2, Entry.dir n r cs2 ∈ cs ∧ pr ∈ walkDir (pathJoin root n) r cs2 := by
  induction cs with
  | nil => simp [walkList]
  | cons e rest ih =>
    cases e with
    | file m =>
      rw [walkList_file, ih]
      constructor
      · rintro ⟨n, r, cs2, hmem, hpr⟩
        exact ⟨n, r, cs2, List.mem_cons_of_mem _ hmem, hpr⟩
      · rintro ⟨n, r, cs2, hmem, hpr⟩
        rcases List.mem_cons.mp hmem with h | h
        · exact absurd h (by simp)
        · exact ⟨n, r, cs2, h, hpr⟩
    | dir n0 r0 cs0 =>
      rw [walkList_dir]
      rw [List.mem_append, ih]
      constructor
      · rintro (hpr | ⟨n, r, cs2, hmem, hpr⟩)
        · exact ⟨n0, r0, cs0, List.mem_cons_self _ _, hpr⟩
        · exact ⟨n, r, cs2, List.mem_cons_of_mem _ hmem, hpr⟩
      · rintro ⟨n, r, cs2, hmem, hpr⟩
        rcases List.mem_cons.mp hmem with h | h
        · injection h with h1 h2 h3
          subst h1; subst h2; subst h3
          exact Or.inl hpr
        · exact Or.inr ⟨n, r, cs2, h, hpr⟩

theorem mem_walkDir (root : String) (rd : Bool) (cs : List Entry)
    (pr : String × List String) :
    pr ∈ walkDir root rd cs ↔
      rd = true ∧ (pr = (root, filesOf cs) ∨
        ∃ n r cs2, Entry.dir n r cs2 ∈ cs ∧ pr ∈ walkDir (pathJoin root n) r cs2) := by
  cases rd
  · simp [walkDir]
  · simp only [walkDir, if_pos trivial, List.mem_cons, mem_walkList]
    simp [mem_walkList]

theorem sizeOf_child_lt {n : String} {r : Bool} {cs2 cs : List Entry}
    (h : Entry.dir n r cs2 ∈ cs) : sizeOf cs2 < sizeOf cs := by
  have h1 := List.sizeOf_lt_of_mem h
  have h2 : sizeOf cs2 < sizeOf (Entry.dir n r cs2) := by
    simp only [Entry.dir.sizeOf_spec]
    omega
  omega

theorem accessible_of_walkDir :
    ∀ (fuel : Nat) (root : String) (rd : Bool) (cs : List Entry) (d : String)
      (fls : List String) (f : String), sizeOf cs ≤ fuel →
      (d, fls) ∈ walkDir root rd cs → f ∈ fls → AccessibleFile root rd cs d f := by
  intro fuel
  induction fuel with
  | zero =>
    intro root rd cs d fls f hle hmem hf
    exfalso
    have hpos : 0 < sizeOf cs := by cases cs <;> simp_arith
    omega
  | succ fuel ih =>
    intro root rd cs d fls f hle hmem hf
    rcases (mem_walkDir root rd cs (d, fls)).mp hmem with ⟨hrd, hcase⟩
    subst hrd
    rcases hcase with heq | ⟨n, r, cs2, hdir, hsub⟩
    · rw [Prod.mk.injEq] at heq
      obtain ⟨h1, h2⟩ := heq
      subst h1; subst h2
      exact AccessibleFile.here ((mem_filesOf cs f).mp hf)
    · have hlt : sizeOf cs2 < sizeOf cs := sizeOf_child_lt hdir
      exact AccessibleFile.sub hdir
        (ih (pathJoin root n) r cs2 d fls f (by omega) hsub hf)

theorem walkDir_of_accessible {root : String} {rd : Bool} {cs : List Entry} {d f : String}
    (h : AccessibleFile root rd cs d f) :
    ∃ fls, (d, fls) ∈ walkDir root rd cs ∧ f ∈ fls := by
  induction h with
  | here hmem =>
    exact ⟨filesOf _, (mem_walkDir _ _ _ _).mpr ⟨rfl, Or.inl rfl⟩,
      (mem_filesOf _ _).mpr hmem⟩
  | sub hdir hsub ih =>
    obtain ⟨fls, hm, hf⟩ := ih
    exact ⟨fls, (mem_walkDir _ _ _ _).mpr ⟨rfl, Or.inr ⟨_, _, _, hdir, hm⟩⟩, hf⟩

theorem mem_scanFiles (root : String) (rd : Bool) (cs : List Entry) (x : String) :
    x ∈ scanFiles root rd cs ↔
      ∃ d f, AccessibleFile root rd cs d f ∧ isSupportedFile f = true ∧
        x = pathJoin d f := by
  simp only [scanFiles, List.mem_flatMap]
  constructor
  · rintro ⟨rf, hrf, hx⟩
    obtain ⟨d, fls⟩ := rf
    simp only [List.mem_map, List.mem_filter] at hx
    obtain ⟨f, ⟨hf, hsup⟩, hxeq⟩ := hx
    exact ⟨d, f, accessible_of_walkDir (sizeOf cs) root rd cs d fls f (le_refl _) hrf hf,
      hsup, hxeq.symm⟩
  · rintro ⟨d, f, hacc, hsup, hxeq⟩
    obtain ⟨fls, hm, hf⟩ := walkDir_of_accessible hacc
    refine ⟨(d, fls), hm, ?_⟩
    simp only [List.mem_map, List.mem_filter]
    exact ⟨f, ⟨hf, hsup⟩, hxeq.symm⟩

theorem get_file_info_state (s : Service) (p : String) : (get_file_info s p).1 = s := by
  cases h : alistLookup s.loaded_files p <;> simp [get_file_info, h]

theorem get_channel_data_state (s : Service) (p ch : String) :
    (get_channel_data s p ch).1 = s := by
  cases h : alistLookup s.processed_data p with
  | none => simp [get_channel_data, h]
  | some pr => cases h2 : alistLookup pr.channels ch <;> simp [get_channel_data, h, h2]

theorem get_all_channel_data_state (s : Service) (p : String) :
    (get_all_channel_data s p).1 = s := by
  cases h : alistLookup s.processed_data p <;> simp [get_all_channel_data, h]

theorem load_file_failure (fs : FS) (s : Service) (p : String)
    (h : read_csv_file fs p = none) :
    load_file fs s p = (s, false) := by
  unfold load_file
  cases hfs : fs p with
  | none => simp [os_path_exists, hfs]
  | some c =>
    have hex : os_path_exists fs p = true := by simp [os_path_exists, hfs]
    simp [hex, h]

theorem load_file_success (fs : FS) (s : Service) (p : String) (df : DataFrame)
    (h : read_csv_file fs p = some df) :
    load_file fs s p =
      (⟨alistInsert s.loaded_files p df,
        alistInsert s.processed_data p (processDF df)⟩, true) := by
  have hex : os_path_exists fs p = true := by
    unfold os_path_exists
    unfold read_csv_file at h
    cases hfs : fs p with
    | none => rw [hfs] at h; simp at h
    | some c => simp
  unfold load_file
  simp only [hex, Bool.true_eq_false, if_false, h]
  unfold process_histogram_data
  rw [alistLookup_insert]
  simp

theorem reachable_WFState {s : Service} (h : Reachable s) : WFState s := by
  induction h with
  | init => intro q; simp [emptyService, alistLookup]
  | load fs p h ih =>
    cases hr : read_csv_file fs p with
    | none => rw [load_file_failure fs _ p hr]; exact ih
    | some df =>
      rw [load_file_success fs _ p df hr]
      intro q
      simp only
      rw [alistLookup_insert, alistLookup_insert]
      by_cases hq : p = q
      · simp [hq]
      · simp [hq, ih q]
  | unload p h ih =>
    intro q
    simp only [unload_file]
    rw [alistLookup_erase, alistLookup_erase]
    by_cases hq : p = q
    · simp [hq]
    · simp [hq, ih q]
  | unloadAll h ih => intro q; simp [unload_all_files, alistLookup]
  | infoQuery p h ih => rw [get_file_info_state]; exact ih
  | chanQuery p c h ih => rw [get_channel_data_state]; exact ih
  | allChanQuery p h ih => rw [get_all_channel_data_state]; exact ih
  | scanQuery root rd cs h ih => exact ih
  | listQuery h ih => exact ih
  | loadedQuery p h ih => exact ih

/-- Claim C2 (refuted; code bug): the claim — and the source's own comment
"Drop any rows with NaN index (invalid bin values)" — say that rows whose
first-column value is non-numeric are dropped, but `df.dropna()` only drops
rows with `NaN` *data* cells and never inspects the index.  At the failing
input below, the row `abc:4` is kept with a `NaN` (here `none`) index entry,
so a loaded table can have a non-numeric row index value. -/
theorem claim2_nonnumeric_index_row_kept :
    readCsv badIndexFile
      = some ⟨["Ch01"], [some 1, none, some 2], [[2], [4], [6]]⟩
    ∧ (readCsv badIndexFile).map (fun df => df.index.all (fun i => i.isSome))
      = some false := by
  decide

/-- Claim C3: loading a path that does not exist on the filesystem, or whose
parse fails, returns `false` and leaves the whole service state unchanged. -/
theorem claim3_load_failure (fs : FS) (s : Service) (p : String)
    (h : fs p = none ∨ ∃ c, fs p = some c ∧ readCsv c = none) :
    load_file fs s p = (s, false) := by
  apply load_file_failure
  rcases h with h | ⟨c, hc, hr⟩
  · simp [read_csv_file, h]
  · simp [read_csv_file, hc, hr]

/-- Witness for C3 on an empty filesystem. -/
theorem claim3_load_failure_witness :
    load_file (fun _ => none) emptyService "x" = (emptyService, false) :=
  claim3_load_failure (fun _ => none) emptyService "x" (Or.inl rfl)

/-- Claim C4: in every reachable service state, a path is a key of the
loaded-files mapping if and only if it is a key of the processed-data
mapping. -/
theorem claim4_both_or_neither (s : Service) (p : String) (h : Reachable s) :
    (alistLookup s.loaded_files p).isSome = (alistLookup s.processed_data p).isSome := by
  rw [reachable_WFState h p]
  cases alistLookup s.loaded_files p <;> rfl

/-- Witness for C4 at a state with one loaded file. -/
theorem claim4_both_or_neither_witness :
    (alistLookup exampleLoaded.loaded_files "f").isSome
      = (alistLookup exampleLoaded.processed_data "f").isSome :=
  claim4_both_or_neither exampleLoaded "f" (Reachable.load exampleFS "f" Reachable.init)

/-- Claim C5: `get_file_info` returns `none` on an unloaded path; on a loaded
path it returns an info whose `num_channels` is the number of derived channels
and whose bin range is the min/max of the (numeric part of the) parsed row
index, whenever that index has a numeric entry at all. -/
theorem claim5_file_info (s : Service) (p : String) (h : Reachable s) :
    (alistLookup s.loaded_files p = none → (get_file_info s p).2 = none)
    ∧ ∀ df, alistLookup s.loaded_files p = some df →
        ∃ info, (get_file_info s p).2 = some info
          ∧ info.num_channels = (processDF df).channels.length
          ∧ info.channels = (processDF df).channels.map Prod.fst
          ∧ (numIndex df.index ≠ [] →
              info.bin_min = listMin (numIndex df.index)
              ∧ info.bin_max = listMax (numIndex df.index)) := by
  constructor
  · intro hn
    simp [get_file_info, hn]
  · intro df hdf
    have hwf0 := reachable_WFState h p
    have hwf : alistLookup s.processed_data p = some (processDF df) := by
      rw [hwf0, hdf]
      rfl
    refine ⟨⟨p, basename p, (processDF df).channels.length, (processDF df).num_bins,
        (if 0 < df.index.length then listMin (numIndex df.index) else some 0),
        (if 0 < df.index.length then listMax (numIndex df.index) else some 0),
        (processDF df).channels.map Prod.fst⟩, ?_, rfl, rfl, ?_⟩
    · simp [get_file_info, hdf, hwf]
    intro hne
    have hlen : 0 < df.index.length := by
      cases hidx : df.index with
      | nil => exact absurd (by simp [numIndex, hidx]) hne
      | cons a l => simp [hidx]
    exact ⟨by simp [hlen], by simp [hlen]⟩

/-- Witness for C5 at a state with one loaded file. -/
theorem claim5_file_info_witness :
    ∃ info, (get_file_info exampleLoaded "f").2 = some info
      ∧ info.num_channels = (processDF exampleDF).channels.length
      ∧ info.channels = (processDF exampleDF).channels.map Prod.fst
      ∧ (numIndex exampleDF.index ≠ [] →
          info.bin_min = listMin (numIndex exampleDF.index)
          ∧ info.bin_max = listMax (numIndex exampleDF.index)) :=
  (claim5_file_info exampleLoaded "f"
      (Reachable.load exampleFS "f" Reachable.init)).2 exampleDF (by decide)

/-- Claim C6: `scan_folder` returns exactly the walked file paths whose
extension is in the allow-list `{csv, txt, dat}` — a path is in the result iff
it joins an accessible directory with a file whose extension is supported; an
unreadable subtree is skipped silently and the remaining files are still
returned.  On the spec's example directory (`a.csv`, `b.png`, `c/d.txt`) the
result is exactly the two supported paths. -/
theorem claim6_scan_folder (s : Service) (root : String) (rd : Bool)
    (cs : List Entry) (x : String) :
    (x ∈ (scan_folder s root rd cs).2 ↔
      ∃ d f, AccessibleFile root rd cs d f ∧ isSupportedFile f = true ∧
        x = pathJoin d f)
    ∧ (scan_folder s "r" true exampleDir).2 = ["r/a.csv", "r/c/d.txt"] := by
  constructor
  · exact mem_scanFiles root rd cs x
  · show scanFiles "r" true exampleDir = _
    simp only [scanFiles, walkDir, walkList, exampleDir, filesOf]
    decide

/-- Claim C7: `unload_file` always returns `true`, afterwards the path is not
loaded and both its raw and derived entries are absent, and entries of every
other path are unchanged. -/
theorem claim7_unload_file (s : Service) (p q : String) :
    (unload_file s p).2 = true
    ∧ (is_file_loaded (unload_file s p).1 p).2 = false
    ∧ alistLookup (unload_file s p).1.loaded_files q
        = (if p = q then none else alistLookup s.loaded_files q)
    ∧ alistLookup (unload_file s p).1.processed_data q
        = (if p = q then none else alistLookup s.processed_data q) := by
  refine ⟨rfl, ?_, alistLookup_erase _ _ _, alistLookup_erase _ _ _⟩
  show (alistLookup (alistErase s.loaded_files p) p).isSome = false
  rw [alistLookup_erase]
  simp

/-- Claim C8: with the file content unchanged between the calls, loading the
same path twice yields identical `get_all_channel_data` results and identical
return values, and a (re)load overwrites both entries with the parse of the
current content. -/
theorem claim8_reload_roundtrip (fs : FS) (s : Service) (p : String) (c : CellGrid)
    (hc : fs p = some c) :
    (∀ df, readCsv c = some df →
        alistLookup (load_file fs s p).1.loaded_files p = some df
        ∧ alistLookup (load_file fs s p).1.processed_data p = some (processDF df))
    ∧ (get_all_channel_data (load_file fs s p).1 p).2
        = (get_all_channel_data (load_file fs (load_file fs s p).1 p).1 p).2
    ∧ (load_file fs s p).2 = (load_file fs (load_file fs s p).1 p).2 := by
  have hread : read_csv_file fs p = readCsv c := by simp [read_csv_file, hc]
  cases hr : readCsv c with
  | none =>
    have hfail : read_csv_file fs p = none := by rw [hread, hr]
    have h1 := load_file_failure fs s p hfail
    refine ⟨fun df hdf => absurd hdf (by simp [hr]), ?_, ?_⟩
    · rw [h1]
      show (get_all_channel_data s p).2 = (get_all_channel_data (load_file fs s p).1 p).2
      rw [h1]
    · rw [h1]
      show false = (load_file fs s p).2
      rw [h1]
  | some df0 =>
    have hsucc : read_csv_file fs p = some df0 := by rw [hread, hr]
    have h1 := load_file_success fs s p df0 hsucc
    refine ⟨?_, ?_, ?_⟩
    · intro df hdf
      injection hdf with hdf
      subst hdf
      rw [h1]
      constructor
      · show alistLookup (alistInsert s.loaded_files p df0) p = some df0
        rw [alistLookup_insert]
        simp
      · show alistLookup (alistInsert s.processed_data p (processDF df0)) p
          = some (processDF df0)
        rw [alistLookup_insert]
        simp
    · rw [h1]
      have h2 := load_file_success fs
        (⟨alistInsert s.loaded_files p df0, alistInsert s.processed_data p (processDF df0)⟩)
        p df0 hsucc
      show (get_all_channel_data
          (⟨alistInsert s.loaded_files p df0,
            alistInsert s.processed_data p (processDF df0)⟩ : Service) p).2 = _
      rw [h2]
      have e1 : alistLookup (alistInsert s.processed_data p (processDF df0)) p
          = some (processDF df0) := by rw [alistLookup_insert]; simp
      have e2 : alistLookup (alistInsert (alistInsert s.processed_data p (processDF df0))
          p (processDF df0)) p = some (processDF df0) := by rw [alistLookup_insert]; simp
      simp [get_all_channel_data, e1, e2]
    · rw [h1]
      have h2 := load_file_success fs
        (⟨alistInsert s.loaded_files p df0, alistInsert s.processed_data p (processDF df0)⟩)
        p df0 hsucc
      show true = (load_file fs
          (⟨alistInsert s.loaded_files p df0,
            alistInsert s.processed_data p (processDF df0)⟩ : Service) p).2
      rw [h2]

/-- Witness for C8 at the example file. -/
theorem claim8_reload_roundtrip_witness :
    alistLookup (load_file exampleFS emptyService "f").1.loaded_files "f" = some exampleDF
    ∧ (get_all_channel_data (load_file exampleFS emptyService "f").1 "f").2
        = (get_all_channel_data
            (load_file exampleFS (load_file exampleFS emptyService "f").1 "f").1 "f").2 :=
  ⟨((claim8_reload_roundtrip exampleFS emptyService "f" exampleFile (by decide)).1
      exampleDF (by decide)).1,
   (claim8_reload_roundtrip exampleFS emptyService "f" exampleFile (by decide)).2.1⟩

/-- Claim C9: the query operations `get_file_info`, `get_channel_data`,
`get_all_channel_data` and `scan_folder` never modify the service state. -/
theorem claim9_queries_preserve_state (s : Service) (p c root : String) (rd : Bool)
    (cs : List Entry) :
    (get_file_info s p).1 = s
    ∧ (get_channel_data s p c).1 = s
    ∧ (get_all_channel_data s p).1 = s
    ∧ (scan_folder s root rd cs).1 = s :=
  ⟨get_file_info_state s p, get_channel_data_state s p c,
   get_all_channel_data_state s p, rfl⟩

/-- Claim C10: `scan_folder` matches extensions case-insensitively: an
accessible file is returned exactly when the lower-cased form of its
`splitext` extension is in `{.csv, .txt, .dat}`; in particular `A.CSV` and
`b.TxT` are supported while `b.png` is not. -/
theorem claim10_scan_case_insensitive (s : Service) (root : String) (rd : Bool)
    (cs : List Entry) (d f : String) (h : AccessibleFile root rd cs d f) :
    (toLowerStr (splitextExt f) ∈ ([".csv", ".txt", ".dat"] : List String) →
      pathJoin d f ∈ (scan_folder s root rd cs).2)
    ∧ (∀ x, x ∈ (scan_folder s root rd cs).2 →
        ∃ d2 f2, AccessibleFile root rd cs d2 f2
          ∧ toLowerStr (splitextExt f2) ∈ ([".csv", ".txt", ".dat"] : List String)
          ∧ x = pathJoin d2 f2)
    ∧ isSupportedFile "A.CSV" = true
    ∧ isSupportedFile "b.TxT" = true
    ∧ isSupportedFile "b.png" = false := by
  refine ⟨?_, ?_, by decide, by decide, by decide⟩
  · intro hm
    exact (mem_scanFiles root rd cs (pathJoin d f)).mpr
      ⟨d, f, h, by simpa [isSupportedFile] using hm, rfl⟩
  · intro x hx
    obtain ⟨d2, f2, hacc, hsup, hxeq⟩ := (mem_scanFiles root rd cs x).mp hx
    exact ⟨d2, f2, hacc, of_decide_eq_true hsup, hxeq⟩

/-- Witness for C10 at a directory holding the single file `A.CSV`. -/
theorem claim10_scan_case_insensitive_witness :
    (toLowerStr (splitextExt "A.CSV") ∈ ([".csv", ".txt", ".dat"] : List String) →
      pathJoin "r" "A.CSV" ∈ (scan_folder emptyService "r" true [Entry.file "A.CSV"]).2)
    ∧ (∀ x, x ∈ (scan_folder emptyService "r" true [Entry.file "A.CSV"]).2 →
        ∃ d2 f2, AccessibleFile "r" true [Entry.file "A.CSV"] d2 f2
          ∧ toLowerStr (splitextExt f2) ∈ ([".csv", ".txt", ".dat"] : List String)
          ∧ x = pathJoin d2 f2)
    ∧ isSupportedFile "A.CSV" = true
    ∧ isSupportedFile "b.TxT" = true
    ∧ isSupportedFile "b.png" = false :=
  claim10_scan_case_insensitive emptyService "r" true [Entry.file "A.CSV"] "r" "A.CSV"
    (AccessibleFile.here (List.mem_singleton.mpr rfl))

end HistogramReader
